import Mathlib

/-!
Verification of the surge-xt CLI player core: the MIDI event ring buffer and
audio block scheduler of `src/surge-xt/cli/cli-main.cpp`, and the OSC address
dispatcher of `src/surge-xt/osc/OpenSoundControl.cpp`.

Machine integers are modelled as `Nat` with explicit masking/modulus where the
code masks; the C++ `int` cursors never go negative and never reach 2^31 in any
behaviour studied here, so `Nat` is faithful.
-/


namespace SurgeCLI

/-- `midiBufferSz` from cli-main.cpp line 112: capacity of the MIDI ring buffer. -/
def midiBufferSz : Nat := 4096

/-- `midiBufferSzMask` from cli-main.cpp line 112: `midiBufferSz - 1`. -/
def midiBufferSzMask : Nat := midiBufferSz - 1

/-- State of `SurgePlayback`'s MIDI ring: the `midiBuffer` array (modelled as a
total function on `Nat`; every index the code uses stays below `midiBufferSz`,
proved below) together with the write and read cursors `midiWP` and `midiRP`.
The event type is abstract (`juce::MidiMessage` is an opaque copyable record). -/
structure MidiRing (α : Type) where
  buf : Nat → α
  midiWP : Nat
  midiRP : Nat

variable {α : Type}

/-- `SurgePlayback::handleIncomingMidiMessage` (cli-main.cpp lines 115-120):
`midiBuffer[midiWP] = message; midiWP = (midiWP + 1) & midiBufferSzMask;`. -/
def handleIncomingMidiMessage (s : MidiRing α) (e : α) : MidiRing α :=
  { s with buf := Function.update s.buf s.midiWP e,
           midiWP := (s.midiWP + 1) &&& midiBufferSzMask }

/-- A sequence of producer pushes with no intervening drain. -/
def pushAll (s : MidiRing α) (evs : List α) : MidiRing α :=
  evs.foldl handleIncomingMidiMessage s

/-- The drain loop of `audioDeviceIOCallbackWithContext` (cli-main.cpp lines
135-141): `int mw = midiWP; while (mw != midiRP) { applyMidi(midiBuffer[midiRP]);
midiRP = (midiRP + 1) & midiBufferSzMask; }` with `mw` the snapshot of `midiWP`.
Returns the applied events in application order and the final `midiRP`.  The
C++ loop has no fuel; the fuel argument only serves Lean termination, and
`midiBufferSz` steps always suffice when both cursors are in range (proved
below), so the fuelled function computes exactly what the loop computes. -/
def drainLoop (buf : Nat → α) (mw : Nat) : Nat → Nat → List α × Nat
  | rp, 0 => ([], rp)
  | rp, fuel+1 =>
    if rp = mw then ([], rp)
    else
      let rest := drainLoop buf mw ((rp + 1) &&& midiBufferSzMask) fuel
      (buf rp :: rest.1, rest.2)

/-- One full drain pass at a block boundary: the event list applied via
`applyMidi`, and the ring with its updated read cursor. -/
def drain (s : MidiRing α) : (List α) × MidiRing α :=
  let r := drainLoop s.buf s.midiWP s.midiRP midiBufferSz
  (r.1, { s with midiRP := r.2 })

/-- The ring at program start: `midiWP{0}, midiRP{0}`, arbitrary array contents. -/
def initRing (init : Nat → α) : MidiRing α := ⟨init, 0, 0⟩

/-- Number of loop iterations a drain performs: the cyclic distance from the
read cursor to the write snapshot (a proof device, not part of the source). -/
def cursorDist (rp mw : Nat) : Nat := (mw + midiBufferSz - rp) % midiBufferSz

/-! ## Audio block scheduler (`SurgePlayback::audioDeviceIOCallbackWithContext`) -/

/-- Observable actions of one audio callback, in program order: the OSC poll
(`proc->processBlockOSC()`), a MIDI application (`proc->applyMidi(...)`), a
synthesis step (`proc->surge->process()`), and the copy of one pre-computed
sample pair to output frame `i`. -/
inductive Action where
  | oscPoll : Action
  | applyMidi : Nat → Action
  | synthesize : Action
  | emit : Nat → Action
deriving DecidableEq

/-- Scheduler state carried across frames: the MIDI ring and the sample
counter `pos` (initialised to the block size, so the first frame of the first
callback is a block boundary). -/
structure CBState where
  ring : MidiRing Nat
  pos : Nat

/-- The block-boundary body of the frame loop (cli-main.cpp lines 133-144):
when `pos >= BLOCK_SIZE`, drain the ring applying each event, run one
synthesis step, and reset `pos` to zero.  `BLOCK_SIZE` is a compile-time
constant of the wider repository, kept here as the parameter `bs`. -/
def boundaryPhase (bs : Nat) (s : CBState) : CBState × List Action :=
  if bs ≤ s.pos then
    let d := drain s.ring
    ({ ring := d.2, pos := 0 }, d.1.map Action.applyMidi ++ [Action.synthesize])
  else (s, [])

/-- One iteration of the frame loop: possible block-boundary work, then the
copy of one sample pair to output index `i` and `pos++`. -/
def frameStep (bs : Nat) (s : CBState) (i : Nat) : CBState × List Action :=
  let b := boundaryPhase bs s
  ({ b.1 with pos := b.1.pos + 1 }, b.2 ++ [Action.emit i])

/-- The frame loop `for (int i = 0; i < numSamples; ++i)`. -/
def callbackLoop (bs : Nat) : CBState → Nat → Nat → CBState × List Action
  | s, _, 0 => (s, [])
  | s, i, n+1 =>
    let f := frameStep bs s i
    let rest := callbackLoop bs f.1 (i+1) n
    (rest.1, f.2 ++ rest.2)

/-- `audioDeviceIOCallbackWithContext` (cli-main.cpp lines 123-149): one call
to `proc->processBlockOSC()`, then the frame loop over `numSamples` frames. -/
def audioDeviceIOCallbackWithContext (bs : Nat) (s : CBState) (numSamples : Nat) :
    CBState × List Action :=
  let r := callbackLoop bs s 0 numSamples
  (r.1, Action.oscPoll :: r.2)

/-- Trace scanner for the block-boundary discipline.  The flag is true while
MIDI events have been applied without a following synthesis step; emitting an
output sample (or ending the trace) in that state would mean engine mutation
between two output frames of the same block. -/
def boundaryScan : Bool → List Action → Bool
  | d, [] => !d
  | _, Action.applyMidi _ :: t => boundaryScan true t
  | _, Action.synthesize :: t => boundaryScan false t
  | d, Action.emit _ :: t => !d && boundaryScan false t
  | d, Action.oscPoll :: t => !d && boundaryScan d t


/-- A concrete ring for witnesses: zero-filled buffer, `midiWP = 7`,
`midiRP = 5`. -/
def ringW : MidiRing Nat := ⟨fun _ => 0, 7, 5⟩

/-- A concrete scheduler state for witnesses: fresh ring, `pos` at the block
size 32 so the next frame is a boundary. -/
def cbW : CBState := ⟨⟨fun _ => 0, 0, 0⟩, 32⟩

/-- A concrete scheduler state for witnesses with pending MIDI events in
slots 1 and 2. -/
def cbW2 : CBState := ⟨⟨fun j => 100 + j, 3, 1⟩, 32⟩

end SurgeCLI

namespace SurgeOSC

/-! ## OSC address dispatcher (`Surge::OSC::OpenSoundControl`) -/

/-- One OSC message argument as delivered by juce.  `float32` carries the raw
32-bit payload; the dispatcher only moves this value and never computes with
it, so it stays uninterpreted as a `Nat`.  `other` stands for every remaining
juce argument type (int32, blob, colour, ...). -/
inductive OSCArg where
  | float32 : Nat → OSCArg
  | str : String → OSCArg
  | other : OSCArg
deriving DecidableEq

/-- `juce::OSCArgument::getString()`: returns the stored string member, which
is empty unless the argument is a string (juce release-build semantics;
external collaborator, not part of this repository). -/
def argGetString : OSCArg → String
  | OSCArg.str s => s
  | _ => ""

/-- `juce::OSCArgument::isFloat32()`. -/
def argIsFloat32 : OSCArg → Bool
  | OSCArg.float32 _ => true
  | _ => false

/-- `juce::OSCArgument::getFloat32()`; only ever called after `isFloat32`. -/
def argGetFloat32 : OSCArg → Nat
  | OSCArg.float32 v => v
  | _ => 0

/-- An inbound OSC message: address pattern string plus typed arguments. -/
structure OSCMessage where
  addr : String
  args : List OSCArg
deriving DecidableEq

/-- `OpenSoundControl::getWholeString` (OpenSoundControl.cpp lines 87-97):
concatenate every argument's `getString()` into one string, a single space
after each argument except the last. -/
def getWholeString : List OSCArg → String
  | [] => ""
  | [a] => argGetString a
  | a :: b :: rest => argGetString a ++ " " ++ getWholeString (b :: rest)

/-- Patch navigation operations invoked directly by the `patch` branch. -/
inductive NavOp where
  | random : NavOp
  | incr : NavOp
  | decr : NavOp
  | incrCategory : NavOp
  | decrCategory : NavOp
deriving DecidableEq

/-- Deferred work handed to the juce message thread via `callAsync`.  The
task captures the message arguments; its effect is computed when it runs. -/
inductive AsyncTask where
  | patchSave : List OSCArg → AsyncTask
  | sendAllParamsTask : AsyncTask
deriving DecidableEq

/-- C++ failures of the dispatcher itself: `std::string::at(0)` throwing
`std::out_of_range` on an empty address, and the out-of-bounds
`juce::OSCMessage::operator[]` element access on an empty argument array
(undefined behaviour in a release build, an assertion failure in a debug
build), modelled as an error outcome. -/
inductive CppErr where
  | atOutOfRange : CppErr
  | argIndexOutOfBounds : CppErr
deriving DecidableEq

/-- The state the dispatcher can touch.  `oscRingBuf` is the parameter-update
queue `sspPtr->oscRingBuf` (entries: parameter reference, float payload).
`patchid_file`/`has_patchid_file` are the Pending Patch-Load Request slot of
`SurgeSynthesizer` (modelled from the spec: a string path plus a present flag,
mutex-guarded; the guarded copy-in is one atomic record update here).
`lastSCLPath`/`lastKBMPath` are the persisted per-user default paths (modelled
from the spec: the get/set persisted-settings collaborator).  `deferredPings`
counts `processAudioThreadOpsWhenAudioEngineUnavailable` calls; the remaining
list fields record calls into engine collaborators in order. -/
structure OSCState where
  oscRingBuf : List (Nat × Nat)
  patchid_file : String
  has_patchid_file : Bool
  deferredPings : Nat
  asyncTasks : List AsyncTask
  navCalls : List NavOp
  lastSCLPath : Option String
  lastKBMPath : Option String
  tuningLoads : List String
  mappingLoads : List String
  errors : List (String × String)
  sendingOSC : Bool
deriving DecidableEq

/-- Read-only collaborators.  `paramTable` is
`SurgePatch::parameterFromOSCName` (modelled from the spec: look up a
Parameter Reference by the full OSC address, absent when no parameter
matches); `fsExists` is `fs::exists`; `datapath` is `storage.datapath`. -/
structure OSCEnv where
  paramTable : String → Option Nat
  fsExists : String → Bool
  datapath : String

/-- `fs::path::is_relative()` on POSIX: relative iff there is no root, i.e.
the string does not begin with the separator (the empty path is relative). -/
def isRelativePath (s : String) : Bool := !(s.startsWith ("/"))

/-- `Surge::Storage::getUserDefaultPath` (modelled from the spec: read the
persisted per-user default path, falling back to the given default when
unset). -/
def getUserDefaultPath (stored : Option String) (dflt : String) : String :=
  stored.getD dflt

/-- Body text of the error report of the `tuning/path` branch (the quotation
marks around tuning/path/... in the source text are elided). -/
def tuningPathErrText : String :=
  "An OSC tuning/path/... message was received with a path which does not exist: the default path will not change."

/-- Split a character list at `/` separators: the repeated
`getline(split, token, '/')` tokenisation of the source.  It agrees with
`String.splitOn` on `/` but is structurally recursive, so concrete instances
evaluate inside proofs. -/
def splitSlashAux : List Char → List Char → List String
  | [], acc => [String.mk acc.reverse]
  | c :: rest, acc =>
    if c = '/' then String.mk acc.reverse :: splitSlashAux rest []
    else splitSlashAux rest (c :: acc)

/-- The slash-separated tokens of an address pattern; reading a token past
the end of the stream fails and yields the empty string, hence `getD` with
default `""` at use sites. -/
def addrTokens (addr : String) : List String := splitSlashAux addr.data []

/-- Push one Parameter Update Message onto `sspPtr->oscRingBuf`. -/
def pushParamMsg (st : OSCState) (p : Nat) (v : Nat) : OSCState :=
  { st with oscRingBuf := st.oscRingBuf ++ [(p, v)] }

/-- The `patch` branch of `oscMessageReceived` (lines 142-193). -/
def handlePatchBranch (address2 : String) (args : List OSCArg) (st : OSCState) : OSCState :=
  if address2 = "load" then
    let dataStr := getWholeString args ++ ".fxp"
    { st with patchid_file := dataStr, has_patchid_file := true,
              deferredPings := st.deferredPings + 1 }
  else if address2 = "save" then
    { st with asyncTasks := st.asyncTasks ++ [AsyncTask.patchSave args] }
  else if address2 = "random" then
    { st with navCalls := st.navCalls ++ [NavOp.random] }
  else if address2 = "incr" then
    { st with navCalls := st.navCalls ++ [NavOp.incr] }
  else if address2 = "decr" then
    { st with navCalls := st.navCalls ++ [NavOp.decr] }
  else if address2 = "incr_category" then
    { st with navCalls := st.navCalls ++ [NavOp.incrCategory] }
  else if address2 = "decr_category" then
    { st with navCalls := st.navCalls ++ [NavOp.decrCategory] }
  else st

/-- The `tuning` branch of `oscMessageReceived` (lines 195-277). -/
def handleTuningBranch (env : OSCEnv) (address2 address3 : String) (args : List OSCArg)
    (st : OSCState) : OSCState :=
  let dataStr := getWholeString args
  if address2 = "path" then
    if dataStr ≠ "_reset" ∧ env.fsExists dataStr = false then
      { st with errors := st.errors ++ [(tuningPathErrText, "Path does not exist.")] }
    else
      if address3 = "scl" then
        let ppath := if dataStr = "_reset" then env.datapath ++ "/tuning_library/SCL"
                     else dataStr
        { st with lastSCLPath := some ppath }
      else if address3 = "kbm" then
        let ppath := if dataStr = "_reset" then env.datapath ++ "/tuning_library/KBM Concert Pitch"
                     else dataStr
        { st with lastKBMPath := some ppath }
      else st
  else if address2 = "scl" then
    let def_path :=
      if isRelativePath dataStr then
        getUserDefaultPath st.lastSCLPath (env.datapath ++ "/tuning_library/SCL")
          ++ "/" ++ dataStr ++ ".scl"
      else dataStr ++ ".scl"
    { st with tuningLoads := st.tuningLoads ++ [def_path] }
  else if address2 = "kbm" then
    let def_path :=
      if isRelativePath dataStr then
        getUserDefaultPath st.lastKBMPath (env.datapath ++ "/tuning_library/KBM Concert Pitch")
          ++ "/" ++ dataStr ++ ".kbm"
      else dataStr ++ ".kbm"
    { st with mappingLoads := st.mappingLoads ++ [def_path] }
  else st

/-- `OpenSoundControl::sendAllParams` (lines 349-386): when sending is
enabled, hand the full parameter dump to the juce message thread via
`callAsync`; otherwise do nothing. -/
def sendAllParams (st : OSCState) : OSCState :=
  if st.sendingOSC then
    { st with asyncTasks := st.asyncTasks ++ [AsyncTask.sendAllParamsTask] }
  else st

/-- `OpenSoundControl::oscMessageReceived` (OpenSoundControl.cpp lines
99-282).  `addr.at(0)` throws `std::out_of_range` on the empty address;
tokenisation by repeated `getline(split, tok, '/')` is modelled by
`addrTokens`, a failed read yielding the empty token; `message[0]` on a
message with no arguments is an out-of-bounds element access. -/
def oscMessageReceived (env : OSCEnv) (msg : OSCMessage) (st : OSCState) :
    Except CppErr OSCState :=
  let addr := msg.addr
  if addr.isEmpty then Except.error CppErr.atOutOfRange
  else if addr.front ≠ '/' then Except.ok st
  else
    let parts := addrTokens addr
    let address1 := parts.getD 1 ""
    if address1 = "param" then
      match env.paramTable addr with
      | none => Except.ok st
      | some p =>
        match msg.args with
        | [] => Except.error CppErr.argIndexOutOfBounds
        | a :: _ =>
          if argIsFloat32 a then Except.ok (pushParamMsg st p (argGetFloat32 a))
          else Except.ok st
    else if address1 = "patch" then
      Except.ok (handlePatchBranch (parts.getD 2 "") msg.args st)
    else if address1 = "tuning" then
      Except.ok (handleTuningBranch env (parts.getD 2 "") (parts.getD 3 "") msg.args st)
    else if address1 = "send_all_parameters" then
      Except.ok (sendAllParams st)
    else Except.ok st

/-- Effect of an executed `patch/save` task: the `callAsync` body at lines
161-171, run on the juce message thread. -/
inductive SaveCall where
  | saveDefault : SaveCall
  | saveToPath : String → SaveCall
deriving DecidableEq

/-- Run the deferred `patch/save` body: empty joined string means
`synth->savePatch(false, true)`; otherwise `synth->savePatchToPath` on the
joined string plus `.fxp`. -/
def runPatchSave (args : List OSCArg) : SaveCall :=
  let dataStr := getWholeString args
  if dataStr.isEmpty then SaveCall.saveDefault
  else SaveCall.saveToPath (dataStr ++ ".fxp")

/-- `Parameter::valtype` values reachable for patch parameters. -/
inductive ValType where
  | vt_int : ValType
  | vt_bool : ValType
  | vt_float : ValType
deriving DecidableEq

/-- One `Parameter` as read by `sendAllParams`: OSC name, declared value type
and the active member of the value union (the float member kept as
uninterpreted bits). -/
structure Param where
  oscName : String
  valtype : ValType
  vali : Int
  valb : Bool
  valf : Nat

/-- The `callAsync` body of `sendAllParams` (lines 354-384) executed against a
snapshot `params` of `getPatch().param_ptr`: one outbound
`(p.oscName, valStr)` message per parameter, `valStr` rendered with
`std::to_string` — decimal integer for `vt_int`, the bool promoted to `int`
(so `0`/`1`) for `vt_bool`, and the platform rendering `fmtFloat` of
`std::to_string(float)` (an external collaborator) for `vt_float`. -/
def runSendAllParams (fmtFloat : Nat → String) (params : List Param) :
    List (String × String) :=
  params.map fun p =>
    (p.oscName,
      match p.valtype with
      | ValType.vt_int => toString p.vali
      | ValType.vt_bool => if p.valb then "1" else "0"
      | ValType.vt_float => fmtFloat p.valf)

/-- A state with empty queues and no pending request; `sendingOSC` set, as
after a successful `initOSCOut`. -/
def initState : OSCState :=
  ⟨[], "", false, 0, [], [], none, none, [], [], [], true⟩

/-- A concrete environment for witnesses: no parameters, no files on disk. -/
def env0 : OSCEnv := ⟨fun _ => none, fun _ => false, "/data"⟩


/-- An environment for witnesses whose patch has one parameter, with OSC name
`/param/volume` and reference 7. -/
def envP : OSCEnv :=
  ⟨fun a => if a = "/param/volume" then some 7 else none, fun _ => false, "/data"⟩

/-- A concrete float formatter standing in for `std::to_string(float)`. -/
def fmtW : Nat → String := fun _ => "0.500000"

/-- A concrete three-parameter patch snapshot for witnesses: one integer, one
boolean and one float parameter. -/
def paramsW : List Param :=
  [⟨"/param/a", ValType.vt_int, -3, false, 0⟩,
   ⟨"/param/b", ValType.vt_bool, 0, true, 0⟩,
   ⟨"/param/c", ValType.vt_float, 0, false, 99⟩]

end SurgeOSC

namespace SurgeCLI

variable {α : Type}

theorem and_mask_eq_mod (x : Nat) : x &&& midiBufferSzMask = x % midiBufferSz := by
  have h := Nat.and_pow_two_sub_one_eq_mod x 12
  norm_num at h
  simpa [midiBufferSzMask, midiBufferSz] using h

theorem cursorDist_def (rp mw : Nat) : cursorDist rp mw = (mw + 4096 - rp) % 4096 := rfl

theorem sz_def : midiBufferSz = 4096 := rfl

theorem drainLoop_spec (buf : Nat → α) (mw : Nat) (hw : mw < midiBufferSz) :
    ∀ fuel rp, rp < midiBufferSz → cursorDist rp mw ≤ fuel →
      drainLoop buf mw rp fuel =
        ((List.range (cursorDist rp mw)).map fun k => buf ((rp + k) % midiBufferSz), mw) := by
  rw [sz_def] at hw
  intro fuel
  induction fuel with
  | zero =>
    intro rp hrp hd
    rw [sz_def] at hrp
    have h0 : cursorDist rp mw = 0 := Nat.le_zero.mp hd
    rw [cursorDist_def] at h0
    have hrm : rp = mw := by omega
    simp [drainLoop, cursorDist_def, h0, hrm]
  | succ f ih =>
    intro rp hrp hd
    rw [sz_def] at hrp
    by_cases hrm : rp = mw
    · subst hrm
      have h0 : cursorDist rp rp = 0 := by rw [cursorDist_def]; omega
      simp [drainLoop, h0]
    · have hd0 : cursorDist rp mw ≠ 0 := by rw [cursorDist_def]; omega
      obtain ⟨d, hdeq⟩ : ∃ d, cursorDist rp mw = d + 1 :=
        ⟨cursorDist rp mw - 1, by omega⟩
      have hmask : (rp + 1) &&& midiBufferSzMask = (rp + 1) % midiBufferSz :=
        and_mask_eq_mod (rp + 1)
      have hrp' : (rp + 1) % midiBufferSz < midiBufferSz := by
        rw [sz_def]; omega
      have hdist' : cursorDist ((rp + 1) % midiBufferSz) mw = d := by
        rw [cursorDist_def] at hdeq ⊢
        rw [sz_def]
        omega
      have hle : cursorDist ((rp + 1) % midiBufferSz) mw ≤ f := by omega
      have hrec := ih ((rp + 1) % midiBufferSz) hrp' hle
      rw [hdist'] at hrec
      simp only [drainLoop, if_neg hrm, hmask, hrec, hdeq, List.range_succ_eq_map,
        List.map_cons, List.map_map, Prod.mk.injEq]
      refine ⟨?_, trivial⟩
      have hrpmod : (rp + 0) % midiBufferSz = rp := by
        rw [sz_def]; omega
      rw [hrpmod]
      refine congrArg (List.cons (buf rp)) (List.map_congr_left ?_)
      intro k _
      simp only [Function.comp_apply]
      refine congrArg buf ?_
      rw [sz_def]
      omega

theorem pushAll_snoc (s : MidiRing α) (evs : List α) (e : α) :
    pushAll s (evs ++ [e]) = handleIncomingMidiMessage (pushAll s evs) e := by
  unfold pushAll
  rw [List.foldl_append]
  rfl

/-- After `N` pushes into the empty ring, `midiWP = N % midiBufferSz`,
`midiRP = 0`, and for every slot `j` below `N % midiBufferSz` the slot holds
the event of index `N - N % midiBufferSz + j` of the pushed sequence. -/
theorem pushAll_spec (init : Nat → α) (evs : List α) :
    (pushAll (initRing init) evs).midiWP = evs.length % midiBufferSz ∧
    (pushAll (initRing init) evs).midiRP = 0 ∧
    ∀ j, j < evs.length % midiBufferSz →
      evs[evs.length - evs.length % midiBufferSz + j]? =
        some ((pushAll (initRing init) evs).buf j) := by
  induction evs using List.reverseRecOn with
  | nil =>
    refine ⟨rfl, rfl, ?_⟩
    intro j hj
    simp at hj
  | append_singleton xs x ih =>
    obtain ⟨ihw, ihr, ihb⟩ := ih
    rw [pushAll_snoc]
    set s := pushAll (initRing init) xs with hs
    set N := xs.length with hN
    have hlen : (xs ++ [x]).length = N + 1 := by simp
    have hwp' : (handleIncomingMidiMessage s x).midiWP = (N + 1) % midiBufferSz := by
      show (s.midiWP + 1) &&& midiBufferSzMask = (N + 1) % midiBufferSz
      rw [and_mask_eq_mod, ihw]
      unfold midiBufferSz; omega
    refine ⟨by rw [hlen, hwp'], ihr, ?_⟩
    intro j hj
    rw [hlen] at hj ⊢
    have hNm : N % midiBufferSz < midiBufferSz := by
      unfold midiBufferSz; omega
    by_cases hjw : j = N % midiBufferSz
    · -- the slot just written: it holds the new event `x`, of index `N`
      have hnowrap : (N + 1) % midiBufferSz = N % midiBufferSz + 1 := by
        subst hjw
        unfold midiBufferSz at hj ⊢; omega
      have hidx : N + 1 - (N + 1) % midiBufferSz + j = N := by
        subst hjw; unfold midiBufferSz at hnowrap ⊢; omega
      rw [hidx]
      have hget : (xs ++ [x])[N]? = some x := by
        have := List.getElem?_concat_length xs x
        rwa [hN]
      rw [hget]
      show some x = some ((Function.update s.buf s.midiWP x) j)
      rw [ihw, ← hjw] at *
      simp [Function.update_same, hjw, ihw]
    · -- an older slot, untouched by this push
      have hnowrap : (N + 1) % midiBufferSz = N % midiBufferSz + 1 := by
        unfold midiBufferSz at hj ⊢; omega
      have hjlt : j < N % midiBufferSz := by omega
      have hidx : N + 1 - (N + 1) % midiBufferSz + j = N - N % midiBufferSz + j := by
        unfold midiBufferSz at hnowrap ⊢; omega
      rw [hidx]
      have hbound : N - N % midiBufferSz + j < N := by
        have : N % midiBufferSz ≤ N := Nat.mod_le _ _
        omega
      have hleft : (xs ++ [x])[N - N % midiBufferSz + j]? = xs[N - N % midiBufferSz + j]? := by
        apply List.getElem?_append_left
        rw [← hN] at *
        exact hbound
      rw [hleft]
      have hupd : (Function.update s.buf s.midiWP x) j = s.buf j := by
        apply Function.update_noteq
        rw [ihw]; exact hjw
      show _ = some ((Function.update s.buf s.midiWP x) j)
      rw [hupd]
      exact ihb j hjlt

/-- The central ring-buffer fact: pushing a sequence of events into the empty
ring and then draining once applies exactly the newest `N % midiBufferSz`
events, in push order. -/
theorem drain_pushAll (init : Nat → α) (evs : List α) :
    (drain (pushAll (initRing init) evs)).1 =
      evs.drop (evs.length - evs.length % midiBufferSz) := by
  obtain ⟨hwp, hrp, hbuf⟩ := pushAll_spec init evs
  set s := pushAll (initRing init) evs with hs
  set N := evs.length with hN
  set m := N % midiBufferSz with hm
  have hmlt : m < midiBufferSz := by unfold midiBufferSz at *; omega
  have hw : s.midiWP < midiBufferSz := by rw [hwp]; exact hmlt
  have h0 : (0:Nat) < midiBufferSz := by unfold midiBufferSz; omega
  have hdist : cursorDist 0 s.midiWP = m := by
    rw [hwp]; unfold cursorDist midiBufferSz at *; omega
  have hloop := drainLoop_spec s.buf s.midiWP hw midiBufferSz 0 h0
    (by rw [hdist]; unfold midiBufferSz at *; omega)
  rw [hdist] at hloop
  have hdr : (drain s).1 = (List.range m).map fun k => s.buf ((0 + k) % midiBufferSz) := by
    show (drainLoop s.buf s.midiWP s.midiRP midiBufferSz).1 = _
    rw [hrp, hloop]
  rw [hdr]
  apply List.ext_getElem?
  intro n
  rw [List.getElem?_drop]
  by_cases hn : n < m
  · have hrange : (List.range m)[n]? = some n := by
      rw [List.getElem?_range hn]
    rw [List.getElem?_map, hrange]
    have hmod : (0 + n) % midiBufferSz = n := by
      rw [sz_def]
      rw [sz_def] at hmlt
      omega
    simp only [Option.map_some']
    rw [hmod]
    exact (hbuf n hn).symm
  · have hrange : (List.range m)[n]? = none := by
      rw [List.getElem?_eq_none]
      simpa using Nat.le_of_not_lt hn
    rw [List.getElem?_map, hrange]
    have : N ≤ N - m + n := by
      have : m ≤ N := Nat.mod_le _ _
      omega
    rw [List.getElem?_eq_none (by rw [← hN] at *; exact this)]
    rfl

/-- Drain summary for in-range cursors: the read cursor lands exactly on the
write snapshot (the ring is fully caught up), the write cursor is untouched,
and the applied events are the buffer slots walked from `midiRP`, one slot per
iteration, every index reduced modulo `midiBufferSz`. -/
theorem drain_spec (s : MidiRing α) (hw : s.midiWP < midiBufferSz)
    (hr : s.midiRP < midiBufferSz) :
    (drain s).2.midiRP = s.midiWP ∧
    (drain s).2.midiWP = s.midiWP ∧
    (drain s).2.buf = s.buf ∧
    (drain s).1.length = cursorDist s.midiRP s.midiWP ∧
    ∀ k, k < cursorDist s.midiRP s.midiWP →
      (drain s).1[k]? = some (s.buf ((s.midiRP + k) % midiBufferSz)) := by
  have hfuel : cursorDist s.midiRP s.midiWP ≤ midiBufferSz := by
    rw [cursorDist_def, sz_def]
    omega
  have hloop := drainLoop_spec s.buf s.midiWP hw midiBufferSz s.midiRP hr hfuel
  have h1 : (drain s).1 =
      (List.range (cursorDist s.midiRP s.midiWP)).map
        fun k => s.buf ((s.midiRP + k) % midiBufferSz) := by
    show (drainLoop s.buf s.midiWP s.midiRP midiBufferSz).1 = _
    rw [hloop]
  have h2 : (drain s).2.midiRP = s.midiWP := by
    show (drainLoop s.buf s.midiWP s.midiRP midiBufferSz).2 = _
    rw [hloop]
  refine ⟨h2, rfl, rfl, ?_, ?_⟩
  · rw [h1]
    simp
  · intro k hk
    rw [h1, List.getElem?_map, List.getElem?_range hk]
    rfl

theorem boundaryScan_applies_synth (l : List Nat) (d : Bool) (t : List Action) :
    boundaryScan d (l.map Action.applyMidi ++ Action.synthesize :: t) =
      boundaryScan false t := by
  induction l generalizing d with
  | nil => rfl
  | cons e rest ih =>
    simp only [List.map_cons, List.cons_append]
    show boundaryScan true (rest.map Action.applyMidi ++ Action.synthesize :: t) = _
    exact ih true

theorem boundaryScan_frame (bs : Nat) (s : CBState) (i : Nat) (t : List Action) :
    boundaryScan false ((frameStep bs s i).2 ++ t) = boundaryScan false t := by
  unfold frameStep boundaryPhase
  by_cases h : bs ≤ s.pos
  · simp only [if_pos h, List.append_assoc, List.cons_append, List.nil_append]
    rw [boundaryScan_applies_synth]
    rfl
  · simp only [if_neg h, List.nil_append, List.cons_append]
    rfl

theorem boundaryScan_loop (bs : Nat) (s : CBState) (i n : Nat) :
    boundaryScan false (callbackLoop bs s i n).2 = true := by
  induction n generalizing s i with
  | zero => rfl
  | succ n ih =>
    show boundaryScan false ((frameStep bs s i).2 ++ _) = true
    rw [boundaryScan_frame]
    exact ih _ _

theorem oscPoll_not_in_frame (bs : Nat) (s : CBState) (i : Nat) :
    Action.oscPoll ∉ (frameStep bs s i).2 := by
  unfold frameStep boundaryPhase
  by_cases h : bs ≤ s.pos
  · simp only [if_pos h]
    intro hmem
    rcases List.mem_append.mp hmem with hmem | hmem
    · rcases List.mem_append.mp hmem with hmem | hmem
      · rcases List.mem_map.mp hmem with ⟨e, _, habs⟩
        exact Action.noConfusion habs
      · exact Action.noConfusion (List.mem_singleton.mp hmem)
    · exact Action.noConfusion (List.mem_singleton.mp hmem)
  · simp only [if_neg h, List.nil_append]
    intro hmem
    exact Action.noConfusion (List.mem_singleton.mp hmem)

theorem oscPoll_not_in_loop (bs : Nat) (s : CBState) (i n : Nat) :
    Action.oscPoll ∉ (callbackLoop bs s i n).2 := by
  induction n generalizing s i with
  | zero => simp [callbackLoop]
  | succ n ih =>
    show Action.oscPoll ∉ (frameStep bs s i).2 ++ _
    intro hmem
    rcases List.mem_append.mp hmem with hmem | hmem
    · exact oscPoll_not_in_frame bs s i hmem
    · exact ih _ _ hmem


end SurgeCLI

namespace SurgeCLI

/-! ## Claims about the ring buffer and the audio block scheduler -/

/-- C1 (amended): for every sequence of `N` MIDI events pushed by the producer
into the fresh ring before any drain, a single drain pass applies exactly
`N % 4096` events via `applyMidi` — all `N` of them, in push order, when
`N < 4096`, but only the newest `N % 4096` (still in push order) when
`N ≥ 4096`, dropping the oldest `N - N % 4096`.  In particular a multiple of
4096 pushes leaves `midiWP = midiRP`, so the drain applies nothing. -/
theorem C1_drain_applies_newest_mod {α : Type} (init : Nat → α) (evs : List α) :
    (drain (pushAll (initRing init) evs)).1 =
      evs.drop (evs.length - evs.length % midiBufferSz) ∧
    (drain (pushAll (initRing init) evs)).1.length = evs.length % midiBufferSz := by
  have h := drain_pushAll init evs
  refine ⟨h, ?_⟩
  rw [h, List.length_drop]
  have := Nat.mod_le evs.length midiBufferSz
  omega

/-- C1 counterexample: pushing exactly 4096 events and then draining applies
0 events, not `min 4096 4096 = 4096` as the claim states (after 4096 pushes
the masked write cursor has wrapped to equal the read cursor, so the drain
loop body never runs). -/
theorem C1_counterexample :
    (drain (pushAll (initRing (fun _ => (0 : Nat))) (List.range 4096))).1.length ≠
      min (List.range 4096).length midiBufferSz := by
  have h := drain_pushAll (fun _ => (0 : Nat)) (List.range 4096)
  rw [h]
  simp only [List.length_drop, List.length_range, sz_def]
  omega

/-- C3: MIDI events are applied to engine state only at a block boundary.
Conjunct 1: a frame with `pos < BLOCK_SIZE` performs no `applyMidi` and no
synthesis — its whole trace is one sample copy.  Conjunct 2: a boundary frame
drains the pending events (the read cursor lands on the write cursor), applies
them before exactly one synthesis step, and resets `pos` to zero.  Conjunct 3:
over a whole callback, no trace ever applies a MIDI event after a sample of
the current block has been emitted and before the next synthesis step. -/
theorem C3_block_boundary_discipline (bs n : Nat) (s : CBState)
    (hw : s.ring.midiWP < midiBufferSz) (hr : s.ring.midiRP < midiBufferSz) :
    (s.pos < bs → ∀ i, (frameStep bs s i).2 = [Action.emit i]) ∧
    (bs ≤ s.pos →
      (boundaryPhase bs s).2 =
        (drain s.ring).1.map Action.applyMidi ++ [Action.synthesize] ∧
      (boundaryPhase bs s).1.pos = 0 ∧
      (boundaryPhase bs s).1.ring.midiRP = s.ring.midiWP) ∧
    boundaryScan false (audioDeviceIOCallbackWithContext bs s n).2 = true := by
  refine ⟨?_, ?_, ?_⟩
  · intro hlt i
    unfold frameStep boundaryPhase
    rw [if_neg (by omega)]
    rfl
  · intro hge
    obtain ⟨hdr, _, _, _, _⟩ := drain_spec s.ring hw hr
    unfold boundaryPhase
    rw [if_pos hge]
    exact ⟨rfl, rfl, hdr⟩
  · show boundaryScan false (Action.oscPoll :: (callbackLoop bs s 0 n).2) = true
    have h1 : boundaryScan false (Action.oscPoll :: (callbackLoop bs s 0 n).2)
        = boundaryScan false (callbackLoop bs s 0 n).2 := rfl
    rw [h1, boundaryScan_loop]

/-- C3 witness at a concrete boundary state. -/
theorem C3_witness :
    (boundaryPhase 32 cbW2).1.pos = 0 ∧
    (boundaryPhase 32 cbW2).1.ring.midiRP = 3 ∧
    boundaryScan false (audioDeviceIOCallbackWithContext 32 cbW2 70).2 = true := by
  have h := C3_block_boundary_discipline 32 70 cbW2 (by decide) (by decide)
  have h2 := h.2.1 (by decide)
  exact ⟨h2.2.1, h2.2.2, h.2.2⟩

/-- C5 (amended): within one invocation of the audio device callback,
`processBlockOSC` is polled exactly once, at the very start — before any
synthesis step of that callback, but not again before later blocks when the
callback spans several block boundaries. -/
theorem C5_poll_once_per_callback (bs : Nat) (s : CBState) (n : Nat) :
    (audioDeviceIOCallbackWithContext bs s n).2.head? = some Action.oscPoll ∧
    (audioDeviceIOCallbackWithContext bs s n).2.count Action.oscPoll = 1 := by
  refine ⟨rfl, ?_⟩
  show (Action.oscPoll :: (callbackLoop bs s 0 n).2).count Action.oscPoll = 1
  rw [List.count_cons_self]
  rw [List.count_eq_zero.mpr (oscPoll_not_in_loop bs s 0 n)]

/-- C5 counterexample: a callback of 33 frames entered at `pos = BLOCK_SIZE`
(block size 32) performs two synthesis steps — it produces two blocks — but
polls `processBlockOSC` only once, so the poll does not run before every
block. -/
theorem C5_counterexample :
    (audioDeviceIOCallbackWithContext 32 cbW 33).2.count Action.synthesize = 2 ∧
    (audioDeviceIOCallbackWithContext 32 cbW 33).2.count Action.oscPoll = 1 := by
  decide

/-- C10: with both cursors in `[0, 4095]`, a push leaves `midiRP` alone,
stores the event at the in-range index `midiWP`, and advances `midiWP` by
exactly one slot modulo 4096, staying in `[0, 4095]`; a drain leaves `midiWP`
alone, walks `midiRP` one slot per iteration through the in-range indices
`(midiRP + k) % 4096`, and ends with `midiRP` equal to `midiWP`, again in
`[0, 4095]`. -/
theorem C10_cursor_invariants (s : MidiRing Nat) (e : Nat)
    (hw : s.midiWP < midiBufferSz) (hr : s.midiRP < midiBufferSz) :
    (handleIncomingMidiMessage s e).midiWP = (s.midiWP + 1) % midiBufferSz ∧
    (handleIncomingMidiMessage s e).midiWP < midiBufferSz ∧
    (handleIncomingMidiMessage s e).midiRP = s.midiRP ∧
    (handleIncomingMidiMessage s e).buf s.midiWP = e ∧
    (drain s).2.midiWP = s.midiWP ∧
    (drain s).2.midiRP = s.midiWP ∧
    (drain s).2.midiRP < midiBufferSz ∧
    (drain s).1.length = cursorDist s.midiRP s.midiWP ∧
    ∀ k, k < cursorDist s.midiRP s.midiWP →
      (drain s).1[k]? = some (s.buf ((s.midiRP + k) % midiBufferSz)) := by
  obtain ⟨hd1, hd2, _, hd4, hd5⟩ := drain_spec s hw hr
  refine ⟨?_, ?_, rfl, ?_, hd2, hd1, ?_, hd4, hd5⟩
  · show (s.midiWP + 1) &&& midiBufferSzMask = (s.midiWP + 1) % midiBufferSz
    exact and_mask_eq_mod (s.midiWP + 1)
  · show (s.midiWP + 1) &&& midiBufferSzMask < midiBufferSz
    rw [and_mask_eq_mod, sz_def]
    omega
  · show Function.update s.buf s.midiWP e s.midiWP = e
    exact Function.update_same s.midiWP e s.buf
  · rw [hd1]
    exact hw

/-- C10 witness at a concrete ring (`midiWP = 7`, `midiRP = 5`). -/
theorem C10_witness :
    (handleIncomingMidiMessage ringW 42).midiWP = 8 % midiBufferSz ∧
    (handleIncomingMidiMessage ringW 42).midiRP = 5 ∧
    (drain ringW).2.midiRP = 7 ∧
    (drain ringW).1.length = cursorDist 5 7 := by
  have h := C10_cursor_invariants ringW 42 (by decide) (by decide)
  exact ⟨h.1, h.2.2.1, h.2.2.2.2.2.1, h.2.2.2.2.2.2.2.1⟩

end SurgeCLI

namespace SurgeOSC

/-! ## Claims about the OSC address dispatcher -/

/-- C2 (amended): for every message whose nonempty address pattern does not
begin with `/`, `oscMessageReceived` returns with no state mutation, nothing
enqueued, no error report and no exception; on the empty address pattern,
however, `addr.at(0)` throws `std::out_of_range` before the pattern check. -/
theorem C2_invalid_address_dropped (env : OSCEnv) (addr : String) (args : List OSCArg)
    (st : OSCState) (h1 : addr.isEmpty = false) (h2 : addr.front ≠ '/') :
    oscMessageReceived env ⟨addr, args⟩ st = Except.ok st ∧
    oscMessageReceived env ⟨"", args⟩ st = Except.error CppErr.atOutOfRange := by
  constructor
  · unfold oscMessageReceived
    simp [h1, h2]
  · rfl

/-- C2 witness: a one-character address `x` is dropped without effect. -/
theorem C2_witness :
    oscMessageReceived env0 ⟨"x", []⟩ initState = Except.ok initState := by
  have h := C2_invalid_address_dropped env0 ("x") [] initState (by decide) (by decide)
  exact h.1

/-- C2 counterexample: on the empty address pattern the handler evaluates
`addr.at(0)`, which throws, rather than returning without an exception as the
claim states for every address not beginning with `/`, the empty string
included. -/
theorem C2_counterexample :
    oscMessageReceived env0 ⟨"", []⟩ initState = Except.error CppErr.atOutOfRange := rfl

/-- C4 (amended): for a message whose first address token is `param`: when no
parameter matches the full address, the message is dropped with no state
change, whatever its arguments; when a parameter matches and the message has
no arguments at all, the code evaluates `message[0]` — an out-of-bounds
element access, undefined behaviour — instead of dropping gracefully; when a
parameter matches and the first argument is not a 32-bit float the message is
dropped; when the first argument is a float, exactly one Parameter Update
Message carrying that parameter reference and payload is enqueued. -/
theorem C4_param_dispatch (env : OSCEnv) (st : OSCState) (addr : String)
    (args : List OSCArg) (p : Nat)
    (h1 : addr.isEmpty = false) (h2 : addr.front = '/')
    (h3 : (addrTokens addr).getD 1 "" = "param") :
    (env.paramTable addr = none → oscMessageReceived env ⟨addr, args⟩ st = Except.ok st) ∧
    (env.paramTable addr = some p → args = [] →
      oscMessageReceived env ⟨addr, args⟩ st = Except.error CppErr.argIndexOutOfBounds) ∧
    (∀ a rest, env.paramTable addr = some p → args = a :: rest → argIsFloat32 a = false →
      oscMessageReceived env ⟨addr, args⟩ st = Except.ok st) ∧
    (∀ v rest, env.paramTable addr = some p → args = OSCArg.float32 v :: rest →
      oscMessageReceived env ⟨addr, args⟩ st =
        Except.ok { st with oscRingBuf := st.oscRingBuf ++ [(p, v)] }) := by
  have h3n : (addrTokens addr)[1]?.getD "" = "param" := by simpa using h3
  refine ⟨?_, ?_, ?_, ?_⟩
  · intro hp
    unfold oscMessageReceived
    simp [h1, h2, h3n, hp]
  · intro hp hargs
    subst hargs
    unfold oscMessageReceived
    simp [h1, h2, h3n, hp]
  · intro a rest hp hargs hfl
    subst hargs
    unfold oscMessageReceived
    simp [h1, h2, h3n, hp, hfl]
  · intro v rest hp hargs
    subst hargs
    unfold oscMessageReceived
    simp [h1, h2, h3n, hp, pushParamMsg, argIsFloat32, argGetFloat32]

/-- C4 witness: a matching parameter with a float argument enqueues exactly
that update. -/
theorem C4_witness :
    oscMessageReceived envP ⟨"/param/volume", [OSCArg.float32 5]⟩ initState =
      Except.ok { initState with oscRingBuf := [(7, 5)] } := by
  have h := C4_param_dispatch envP initState ("/param/volume") [OSCArg.float32 5] 7
    (by decide) (by decide) (by decide)
  exact h.2.2.2 5 [] (by decide) rfl

/-- C4 counterexample: with a matching parameter and a message carrying no
arguments at all, the handler reaches the unguarded `message[0]` access
instead of dropping the message safely as the claim states. -/
theorem C4_counterexample :
    oscMessageReceived envP ⟨"/param/volume", []⟩ initState =
      Except.error CppErr.argIndexOutOfBounds := rfl

/-- C6 (amended): a `patch`/`load` message stores, as the Pending Patch-Load
Request path, the `getString()` values of all arguments (the empty string for
every non-string argument) joined with single spaces plus `.fxp`, sets the
present flag, and signals the deferred-operations pass; the slot holds at
most one request — this equation holds for every prior state, so a later
request simply overwrites an unconsumed earlier one. -/
theorem C6_patch_load_request (env : OSCEnv) (st : OSCState) (addr : String)
    (args : List OSCArg)
    (h1 : addr.isEmpty = false) (h2 : addr.front = '/')
    (h3 : (addrTokens addr).getD 1 "" = "patch")
    (h4 : (addrTokens addr).getD 2 "" = "load") :
    oscMessageReceived env ⟨addr, args⟩ st =
      Except.ok { st with patchid_file := getWholeString args ++ ".fxp",
                          has_patchid_file := true,
                          deferredPings := st.deferredPings + 1 } := by
  have h3n : (addrTokens addr)[1]?.getD "" = "patch" := by simpa using h3
  have h4n : (addrTokens addr)[2]?.getD "" = "load" := by simpa using h4
  unfold oscMessageReceived handlePatchBranch
  simp [h1, h2, h3n, h4n]

/-- C6 witness: argument `Init` yields path `Init.fxp`, overwriting a pending
unconsumed request. -/
theorem C6_witness :
    oscMessageReceived env0 ⟨"/patch/load", [OSCArg.str ("Init")]⟩
        { initState with patchid_file := "Old.fxp", has_patchid_file := true } =
      Except.ok { initState with
                  patchid_file := "Init.fxp"
                  has_patchid_file := true
                  deferredPings := 1 } := by
  have h := C6_patch_load_request env0
    { initState with patchid_file := "Old.fxp", has_patchid_file := true }
    ("/patch/load") [OSCArg.str ("Init")] (by decide) (by decide) (by decide) (by decide)
  exact h

/-- C6 counterexample: a `patch`/`load` message whose first argument is not a
string stores path ` A.fxp` (the non-string argument contributes an empty
string to the space-joined concatenation), not `A.fxp` as joining only the
string arguments would give. -/
theorem C6_counterexample :
    oscMessageReceived env0 ⟨"/patch/load", [OSCArg.other, OSCArg.str ("A")]⟩ initState =
      Except.ok { initState with
                  patchid_file := " A.fxp"
                  has_patchid_file := true
                  deferredPings := 1 } ∧
    " A.fxp" ≠ "A" ++ ".fxp" := by
  exact ⟨rfl, by decide⟩

/-- C7: a `tuning`/`path` message whose joined argument string is neither the
sentinel `_reset` nor an existing filesystem path appends exactly one
user-visible error report and leaves every other state field — in particular
both persisted default paths — unchanged. -/
theorem C7_tuning_path_error (env : OSCEnv) (st : OSCState) (addr : String)
    (args : List OSCArg)
    (h1 : addr.isEmpty = false) (h2 : addr.front = '/')
    (h3 : (addrTokens addr).getD 1 "" = "tuning")
    (h4 : (addrTokens addr).getD 2 "" = "path")
    (h5 : getWholeString args ≠ "_reset")
    (h6 : env.fsExists (getWholeString args) = false) :
    oscMessageReceived env ⟨addr, args⟩ st =
      Except.ok { st with errors :=
        st.errors ++ [(tuningPathErrText, "Path does not exist.")] } := by
  have h3n : (addrTokens addr)[1]?.getD "" = "tuning" := by simpa using h3
  have h4n : (addrTokens addr)[2]?.getD "" = "path" := by simpa using h4
  unfold oscMessageReceived handleTuningBranch
  simp [h1, h2, h3n, h4n, h5, h6]

/-- C7 witness: `/tuning/path/scl` with the non-existent path `nope` reports
exactly one error and changes nothing else. -/
theorem C7_witness :
    oscMessageReceived env0 ⟨"/tuning/path/scl", [OSCArg.str ("nope")]⟩ initState =
      Except.ok { initState with errors :=
        [(tuningPathErrText, "Path does not exist.")] } := by
  have h := C7_tuning_path_error env0 initState ("/tuning/path/scl") [OSCArg.str ("nope")]
    (by decide) (by decide) (by decide) (by decide) (by decide) rfl
  exact h

/-- C8 (amended): a `patch`/`save` message is handed to the juce message
thread as one asynchronous task — nothing is saved on the calling thread —
and running that task performs the interactive/default save when the joined
argument string is empty (in particular when there are no arguments), else a
direct save to the joined string plus `.fxp`. -/
theorem C8_patch_save_dispatch (env : OSCEnv) (st : OSCState) (addr : String)
    (args : List OSCArg)
    (h1 : addr.isEmpty = false) (h2 : addr.front = '/')
    (h3 : (addrTokens addr).getD 1 "" = "patch")
    (h4 : (addrTokens addr).getD 2 "" = "save") :
    oscMessageReceived env ⟨addr, args⟩ st =
      Except.ok { st with asyncTasks := st.asyncTasks ++ [AsyncTask.patchSave args] } ∧
    (args = [] → runPatchSave args = SaveCall.saveDefault) ∧
    (getWholeString args ≠ "" →
      runPatchSave args = SaveCall.saveToPath (getWholeString args ++ ".fxp")) := by
  have h3n : (addrTokens addr)[1]?.getD "" = "patch" := by simpa using h3
  have h4n : (addrTokens addr)[2]?.getD "" = "save" := by simpa using h4
  refine ⟨?_, ?_, ?_⟩
  · unfold oscMessageReceived handlePatchBranch
    simp [h1, h2, h3n, h4n]
  · intro h
    subst h
    rfl
  · intro h
    have hne : (getWholeString args).isEmpty = false := by
      rw [Bool.eq_false_iff]
      intro hc
      exact h ((String.isEmpty_iff (getWholeString args)).mp hc)
    simp [runPatchSave, hne]

/-- C8 witness: argument `MyPatch` enqueues one task whose execution saves
directly to `MyPatch.fxp`. -/
theorem C8_witness :
    oscMessageReceived env0 ⟨"/patch/save", [OSCArg.str ("MyPatch")]⟩ initState =
      Except.ok { initState with asyncTasks := [AsyncTask.patchSave [OSCArg.str ("MyPatch")]] } ∧
    runPatchSave [OSCArg.str ("MyPatch")] = SaveCall.saveToPath ("MyPatch.fxp") := by
  have h := C8_patch_save_dispatch env0 initState ("/patch/save") [OSCArg.str ("MyPatch")]
    (by decide) (by decide) (by decide) (by decide)
  exact ⟨h.1, h.2.2 (by decide)⟩

/-- C8 counterexample: a `patch`/`save` message with one argument, the empty
string, has arguments yet triggers the interactive/default save — the code
branches on the joined string being empty, not on the message having no
arguments (and the direct-save path it would otherwise use is `.fxp`). -/
theorem C8_counterexample :
    runPatchSave [OSCArg.str ("")] = SaveCall.saveDefault ∧
    ([OSCArg.str ("")] : List OSCArg) ≠ [] ∧
    SaveCall.saveDefault ≠ SaveCall.saveToPath (getWholeString [OSCArg.str ("")] ++ ".fxp") := by
  exact ⟨rfl, by decide, by decide⟩

/-- C9: when sending is enabled, a `send_all_parameters` request enqueues
exactly one dump task, and running the dump against a snapshot of `N`
parameters transmits exactly `N` outbound messages, each value string
formatted per the parameter's declared type — decimal integer string for
`vt_int`, `0`/`1` for `vt_bool`, the `std::to_string` float rendering for
`vt_float`. -/
theorem C9_send_all_params (st : OSCState) (fmtFloat : Nat → String)
    (ps : List Param) (h : st.sendingOSC = true) :
    sendAllParams st =
      { st with asyncTasks := st.asyncTasks ++ [AsyncTask.sendAllParamsTask] } ∧
    (runSendAllParams fmtFloat ps).length = ps.length ∧
    (∀ (i : Nat) (p : Param), ps[i]? = some p → p.valtype = ValType.vt_int →
      (runSendAllParams fmtFloat ps)[i]? = some (p.oscName, toString p.vali)) ∧
    (∀ (i : Nat) (p : Param), ps[i]? = some p → p.valtype = ValType.vt_bool →
      (runSendAllParams fmtFloat ps)[i]? = some (p.oscName, if p.valb then "1" else "0")) ∧
    (∀ (i : Nat) (p : Param), ps[i]? = some p → p.valtype = ValType.vt_float →
      (runSendAllParams fmtFloat ps)[i]? = some (p.oscName, fmtFloat p.valf)) := by
  refine ⟨?_, ?_, ?_, ?_, ?_⟩
  · simp [sendAllParams, h]
  · simp [runSendAllParams]
  all_goals
    intro i p hp ht
    unfold runSendAllParams
    rw [List.getElem?_map, hp]
    simp [ht]

/-- C9 witness: a three-parameter snapshot (one of each type) yields exactly
three messages with values `-3`, `1` and the float rendering. -/
theorem C9_witness :
    sendAllParams initState =
      { initState with asyncTasks := [AsyncTask.sendAllParamsTask] } ∧
    (runSendAllParams fmtW paramsW).length = 3 ∧
    (runSendAllParams fmtW paramsW)[0]? = some ("/param/a", toString (-3 : Int)) ∧
    (runSendAllParams fmtW paramsW)[1]? = some ("/param/b", "1") ∧
    (runSendAllParams fmtW paramsW)[2]? = some ("/param/c", "0.500000") := by
  have h := C9_send_all_params initState fmtW paramsW rfl
  refine ⟨h.1, h.2.1, ?_, ?_, ?_⟩
  · exact h.2.2.1 0 ⟨"/param/a", ValType.vt_int, -3, false, 0⟩ rfl rfl
  · exact h.2.2.2.1 1 ⟨"/param/b", ValType.vt_bool, 0, true, 0⟩ rfl rfl
  · exact h.2.2.2.2 2 ⟨"/param/c", ValType.vt_float, 0, false, 99⟩ rfl rfl

end SurgeOSC
